import Mathlib

/-!
Verification of the `cli-sandbox` core (`src/lib.rs`).

A shallow embedding of the sandbox / assertion engine of the `cli-sandbox`
crate.  Bytes and Unicode scalar values are modelled as `Nat`, byte buffers
and decoded strings as `List Nat`, the filesystem as a partial map from
paths to byte contents, and panics / propagated errors as explicit result
constructors.  Each definition is transcribed from the corresponding Rust
item in `src/lib.rs`; external collaborators (the `regex` crate's engine,
the OS path-join semantics, Rust's UTF-8 validation) are modelled by
executable Lean functions mirroring their documented behaviour.
-/

namespace CliSandbox

/-! Generic list helpers. -/

/-- Test that `s` begins with `pat` (the model of Rust slice-prefix
tests). -/
def leadsWith [DecidableEq α] : List α → List α → Bool
  | [], _ => true
  | _ :: _, [] => false
  | p :: ps, s :: ss => if p = s then leadsWith ps ss else false

/-- Test that `needle` occurs contiguously inside `hay` (the model of Rust
`str::contains` with a literal pattern). -/
def containsSub [DecidableEq α] (needle : List α) : List α → Bool
  | [] => leadsWith needle []
  | h :: t => leadsWith needle (h :: t) || containsSub needle t

/-! The UTF-8 codec models Rust's `str::from_utf8` validation and the
`&str` byte encoding.  A Unicode scalar value is a `Nat` below `0xD800` or
inside `(0xDFFF, 0x110000)`.  `encodeScalar` is the standard UTF-8 encoding
used by Rust for `&str`; `decodeUtf8` accepts exactly the byte strings that
`str::from_utf8` accepts (shortest-form sequences, surrogates excluded) and
returns the corresponding scalar values, with `none` modelling a
`Utf8Error`. -/

/-- Valid Unicode scalar value (Rust `char` invariant). -/
def ValidScalar (n : Nat) : Prop := n < 0xD800 ∨ (0xDFFF < n ∧ n < 0x110000)

instance (n : Nat) : Decidable (ValidScalar n) := by
  unfold ValidScalar; infer_instance

/-- UTF-8 encoding of one scalar value. -/
def encodeScalar (n : Nat) : List Nat :=
  if n < 0x80 then [n]
  else if n < 0x800 then [0xC0 + n / 64, 0x80 + n % 64]
  else if n < 0x10000 then [0xE0 + n / 4096, 0x80 + n / 64 % 64, 0x80 + n % 64]
  else [0xF0 + n / 262144, 0x80 + n / 4096 % 64, 0x80 + n / 64 % 64, 0x80 + n % 64]

/-- UTF-8 encoding of a sequence of scalar values (a Rust `&str` as
bytes). -/
def encodeUtf8 (s : List Nat) : List Nat := (s.map encodeScalar).flatten

/-- One-byte-at-a-time UTF-8 validation loop, following the acceptance table
of Rust's `core::str::validations::run_utf8_validation`: `k` is the number of
continuation bytes still expected, `lo`/`hi` bound the next byte, and `acc`
is the partially decoded scalar value. -/
def decodeLoop : Nat → Nat → Nat → Nat → List Nat → Option (List Nat)
  | 0, _, _, _, [] => some []
  | _ + 1, _, _, _, [] => none
  | 0, _, _, _, b :: t =>
    if b < 0x80 then (decodeLoop 0 0 0 0 t).map fun s => b :: s
    else if 0xC2 ≤ b ∧ b ≤ 0xDF then decodeLoop 1 0x80 0xBF (b - 0xC0) t
    else if b = 0xE0 then decodeLoop 2 0xA0 0xBF (b - 0xE0) t
    else if 0xE1 ≤ b ∧ b ≤ 0xEC then decodeLoop 2 0x80 0xBF (b - 0xE0) t
    else if b = 0xED then decodeLoop 2 0x80 0x9F (b - 0xE0) t
    else if 0xEE ≤ b ∧ b ≤ 0xEF then decodeLoop 2 0x80 0xBF (b - 0xE0) t
    else if b = 0xF0 then decodeLoop 3 0x90 0xBF (b - 0xF0) t
    else if 0xF1 ≤ b ∧ b ≤ 0xF3 then decodeLoop 3 0x80 0xBF (b - 0xF0) t
    else if b = 0xF4 then decodeLoop 3 0x80 0x8F (b - 0xF0) t
    else none
  | 1, lo, hi, acc, b :: t =>
    if lo ≤ b ∧ b ≤ hi then
      (decodeLoop 0 0 0 0 t).map fun s => (acc * 64 + (b - 0x80)) :: s
    else none
  | k + 2, lo, hi, acc, b :: t =>
    if lo ≤ b ∧ b ≤ hi then decodeLoop (k + 1) 0x80 0xBF (acc * 64 + (b - 0x80)) t
    else none

/-- UTF-8 validation and decoding of a byte string (`str::from_utf8`). -/
def decodeUtf8 (bytes : List Nat) : Option (List Nat) := decodeLoop 0 0 0 0 bytes

/-! Paths and the filesystem.  `RPath` models an OS path as an absoluteness
flag plus a list of components (each component a list of bytes; `[46, 46]`
is the component `..` and `[46]` is `.`).  `pathJoin` models Rust's
`Path::join`: an absolute right operand replaces the base entirely,
otherwise the components are appended — no normalization of `..` or `.`
takes place.  `resolveComps` models what the OS resolves such a component
list to. -/

structure RPath where
  absolute : Bool
  comps : List (List Nat)
deriving DecidableEq

/-- Rust `Path::join` (used by `new_file`, `check_file`, `is_bin` and
`symlink` as `self.path().join(path)`). -/
def pathJoin (base p : RPath) : RPath :=
  if p.absolute then p else ⟨base.absolute, base.comps ++ p.comps⟩

/-- OS-level resolution of `.` and `..` components. -/
def resolveComps (cs : List (List Nat)) : List (List Nat) :=
  cs.foldl
    (fun acc c =>
      if c = [46, 46] then acc.dropLast
      else if c = [46] then acc
      else acc ++ [c]) []

/-- Test that `cs` contains no `.` or `..` components. -/
def cleanComps (cs : List (List Nat)) : Bool :=
  cs.all fun c => !(c = [46, 46] : Bool) && !(c = [46] : Bool)

/-- Test that the location `target`, once resolved by the OS, lies inside
the directory `root`. -/
def insideB (root target : RPath) : Bool :=
  (root.absolute == target.absolute) && leadsWith root.comps (resolveComps target.comps)

/-- A filesystem: a partial map from paths to raw byte contents. -/
def FS : Type := RPath → Option (List Nat)

/-- Point update of a filesystem (the effect of `std::fs::write`). -/
def fsWrite (fs : FS) (p : RPath) (data : List Nat) : FS :=
  fun q => if q = p then some data else fs q

/-! The `Project` file operations of `src/lib.rs`. -/

/-- Model of `Project::new_file`: `write(self.path().join(path), contents)`.
Here `contents` is a Rust `&str`, i.e. a sequence of Unicode scalar values
stored as its UTF-8 encoding, and `root` is the project's temporary
directory. -/
def new_file (root : RPath) (fs : FS) (path : RPath) (contents : List Nat) : FS :=
  fsWrite fs (pathJoin root path) (encodeUtf8 contents)

/-- Outcome of `Project::check_file`.  `ioError` models the `?`-propagated
`std::io::Error` of `File::open`/`read_to_end`; `utf8Panic` models
`panic!("buf isn't UTF-8 (bug)")`; `mismatchShown a e` models the
`assert_eq!` panic displaying actual `a` against expected `e`. -/
inductive CheckResult where
  | ok
  | ioError
  | utf8Panic
  | mismatchShown (actual expected : List Nat)
deriving DecidableEq

/-- Model of `Project::check_file`: open the file at
`self.path().join(path)` (`Err` propagated on failure), read all bytes,
decode them as UTF-8 (panicking when invalid), and `assert_eq!` the decoded
text against `contents`. -/
def check_file (root : RPath) (fs : FS) (path : RPath) (contents : List Nat) :
    CheckResult :=
  match fs (pathJoin root path) with
  | none => .ioError
  | some bytes =>
    match decodeUtf8 bytes with
    | none => .utf8Panic
    | some buf => if buf = contents then .ok else .mismatchShown buf contents

/-- Test whether a `CheckResult` is the assertion failure that displays both
the actual and the expected text. -/
def isMismatchShown : CheckResult → Bool
  | .mismatchShown _ _ => true
  | _ => false

/-- The magic-number table match of `Project::is_bin`, transcribed from the
slice-pattern `match` on the 8-byte buffer: each entry is compared as a
prefix of its own length (the Dalvik entry uses all 8 bytes). -/
def magic_match (b : List Nat) : Bool :=
  leadsWith [0x4D, 0x5A] b ||                    -- DOS MZ
  leadsWith [0x5A, 0x4D] b ||                    -- DOS ZM
  leadsWith [0x7F, 0x45, 0x4C, 0x46] b ||        -- ELF
  (b = [0x64, 0x65, 0x78, 0x0A, 0x30, 0x33, 0x35, 0x00] : Bool) || -- Dalvik
  leadsWith [0x4A, 0x6F, 0x79, 0x21] b ||        -- Preferred Executable Format
  leadsWith [0x00, 0x00, 0x03, 0xF3] b           -- Amiga Hunk

/-- Model of `Project::is_bin`: opens `self.path().join(path)` with
`File::open(..).expect(..)` — an open failure panics, modelled as `none`.
`read_exact` on the 8-byte buffer succeeds exactly when the file has at
least 8 bytes; on failure the code executes `buf.fill(0x01)`, replacing the
whole buffer with the sentinel byte.  The buffer is then matched against
the magic-number table. -/
def is_bin (root : RPath) (fs : FS) (path : RPath) : Option Bool :=
  match fs (pathJoin root path) with
  | none => none
  | some bytes =>
    some (magic_match (if 8 ≤ bytes.length then bytes.take 8 else List.replicate 8 0x01))

/-! The captured `Output` and the `WithStdout` implementation. -/

/-- Model of `std::process::Output`: captured stdout and stderr byte buffers
plus the exit status. -/
structure Output where
  stdout : List Nat
  stderr : List Nat
  status : Int

/-- Model of `WithStdout::empty_stderr` for `Output` — as written in the
source it inspects `self.stdout`. -/
def empty_stderr (o : Output) : Bool := o.stdout.isEmpty

/-- Model of `WithStdout::empty_stdout` for `Output`. -/
def empty_stdout (o : Output) : Bool := o.stdout.isEmpty

/-- The marker searched by `stdout_warns`/`stderr_warns`: the bytes of the
literal `"warnings:"`. -/
def warnMarker : List Nat := [119, 97, 114, 110, 105, 110, 103, 115, 58]

/-- Model of `WithStdout::stdout_warns`: decodes stdout as UTF-8 (panicking
— `none` — when invalid) and tests `buf.contains("warnings:")`. -/
def stdout_warns (o : Output) : Option Bool :=
  match decodeUtf8 o.stdout with
  | none => none
  | some buf => some (containsSub warnMarker buf)

/-- Model of `WithStdout::stderr_warns`: decodes stderr as UTF-8 (panicking
— `none` — when invalid) and tests `buf.contains("warnings:")`. -/
def stderr_warns (o : Output) : Option Bool :=
  match decodeUtf8 o.stderr with
  | none => none
  | some buf => some (containsSub warnMarker buf)

/-! The regex engine.  The crate under verification delegates pattern
compilation and matching to the external `regex` crate.  We model a
compiled pattern as a classical regular-expression syntax tree over
bytes-as-scalars and give it the standard semantics through Brzozowski
derivatives; `is_match` is the crate's anywhere-in-the-string search: some
contiguous substring of the haystack is fully matched by the pattern. -/

inductive Regex where
  | rvoid                      -- matches nothing (internal to derivatives)
  | emptystr                   -- matches the empty string
  | rchar (c : Nat)            -- matches the single scalar `c`
  | rdot                       -- matches any single scalar
  | rconcat (r1 r2 : Regex)
  | ralt (r1 r2 : Regex)
  | rstar (r : Regex)
deriving DecidableEq

/-- Test whether the regular expression accepts the empty string. -/
def nullable : Regex → Bool
  | .rvoid => false
  | .emptystr => true
  | .rchar _ => false
  | .rdot => false
  | .rconcat r1 r2 => nullable r1 && nullable r2
  | .ralt r1 r2 => nullable r1 || nullable r2
  | .rstar _ => true

/-- Brzozowski derivative of a regular expression by one scalar. -/
def deriv : Regex → Nat → Regex
  | .rvoid, _ => .rvoid
  | .emptystr, _ => .rvoid
  | .rchar c, a => if a = c then .emptystr else .rvoid
  | .rdot, _ => .emptystr
  | .rconcat r1 r2, a =>
    if nullable r1 then .ralt (.rconcat (deriv r1 a) r2) (deriv r2 a)
    else .rconcat (deriv r1 a) r2
  | .ralt r1 r2, a => .ralt (deriv r1 a) (deriv r2 a)
  | .rstar r, a => .rconcat (deriv r a) (.rstar r)

/-- Full match of a whole string against a regular expression. -/
def rmatch (r : Regex) (s : List Nat) : Bool := nullable (s.foldl deriv r)

/-- The `regex` crate's `Regex::is_match`: the pattern matches somewhere in
the haystack, i.e. it fully matches some contiguous substring. -/
def is_match (r : Regex) (s : List Nat) : Bool :=
  s.tails.any fun t => t.inits.any fun p => rmatch r p

/-- Wrap the concrete syntax of a subexpression in parentheses where
grouping requires it (`40`/`41` are the scalars of `(`/`)`). -/
def parenthesize (r : Regex) (inner : List Nat) : List Nat :=
  match r with
  | .ralt _ _ => 40 :: (inner ++ [41])
  | .rconcat _ _ => 40 :: (inner ++ [41])
  | _ => inner

/-- Canonical concrete syntax of a modelled pattern, as a user would write
it for `Regex::new` (`42` is `*`, `46` is `.`, `124` is `|`). -/
def textOf : Regex → List Nat
  | .rvoid => []
  | .emptystr => []
  | .rchar c => [c]
  | .rdot => [46]
  | .ralt r1 r2 => textOf r1 ++ 124 :: textOf r2
  | .rconcat r1 r2 => parenthesize r1 (textOf r1) ++ parenthesize r2 (textOf r2)
  | .rstar r => parenthesize r (textOf r) ++ [42]

/-- The concrete pattern `(a|b)(c|d)` (scalars `97`–`100`), used as a
counterexample input. -/
def patAltPair : Regex :=
  .rconcat (.ralt (.rchar 97) (.rchar 98)) (.ralt (.rchar 99) (.rchar 100))

/-- Outcome of `with_stdout_regex` / `with_stderr_regex`.  `patternPanic`
models `panic!("Regex {} isn't valid: {e}")` reporting the pattern text;
`encodingPanic` models the UTF-8 panic; `mismatchShown a p` models the
`assert_eq!` panic displaying the decoded stream against the pattern
text. -/
inductive RegexCheck where
  | patternPanic (patText : List Nat)
  | encodingPanic
  | ok
  | mismatchShown (actual patText : List Nat)
deriving DecidableEq

/-- Model of `WithStdout::with_stdout_regex` for `Output`.  `compiled` is
the outcome of the external `Regex::new(patText)` (`none` for a malformed
pattern).  The source first compiles the pattern (panicking on failure),
then decodes stdout as UTF-8 (panicking when invalid), and finally runs
`if !re.is_match(&buf) { assert_eq!(buf, regex.as_ref()) }` — so a failed
match still returns normally when the decoded stream happens to equal the
pattern text. -/
def with_stdout_regex (compiled : Option Regex) (patText : List Nat) (o : Output) :
    RegexCheck :=
  match compiled with
  | none => .patternPanic patText
  | some re =>
    match decodeUtf8 o.stdout with
    | none => .encodingPanic
    | some buf =>
      if is_match re buf then .ok
      else if buf = patText then .ok
      else .mismatchShown buf patText

/-- Model of `WithStdout::with_stderr_regex` for `Output` (same shape as
`with_stdout_regex`, reading stderr). -/
def with_stderr_regex (compiled : Option Regex) (patText : List Nat) (o : Output) :
    RegexCheck :=
  match compiled with
  | none => .patternPanic patText
  | some re =>
    match decodeUtf8 o.stderr with
    | none => .encodingPanic
    | some buf =>
      if is_match re buf then .ok
      else if buf = patText then .ok
      else .mismatchShown buf patText

/-! Helper lemmas. -/

theorem leadsWith_iff [DecidableEq α] (pat s : List α) :
    leadsWith pat s = true ↔ ∃ rest, s = pat ++ rest := by
  induction pat generalizing s with
  | nil => simp [leadsWith]
  | cons p ps ih =>
    cases s with
    | nil => simp [leadsWith]
    | cons a t =>
      by_cases hpa : p = a
      · subst hpa
        simpa [leadsWith] using ih t
      · simp only [leadsWith, if_neg hpa, List.cons_append]
        constructor
        · intro h
          exact absurd h (by simp)
        · rintro ⟨rest, h⟩
          injection h with h1 h2
          exact absurd h1.symm hpa

theorem containsSub_iff [DecidableEq α] (needle hay : List α) :
    containsSub needle hay = true ↔ ∃ pre post, hay = pre ++ needle ++ post := by
  induction hay with
  | nil =>
    simp only [containsSub, leadsWith_iff]
    constructor
    · rintro ⟨rest, h⟩
      exact ⟨[], rest, by simpa using h⟩
    · rintro ⟨pre, post, h⟩
      rcases List.append_eq_nil.mp h.symm with ⟨h1, h2⟩
      rcases List.append_eq_nil.mp h1 with ⟨h3, h4⟩
      exact ⟨post, by simp [h4, h2]⟩
  | cons a t ih =>
    simp only [containsSub, Bool.or_eq_true, leadsWith_iff, ih]
    constructor
    · rintro (⟨rest, h⟩ | ⟨pre, post, h⟩)
      · exact ⟨[], rest, by simpa using h⟩
      · exact ⟨a :: pre, post, by simp [h]⟩
    · rintro ⟨pre, post, h⟩
      cases pre with
      | nil => exact Or.inl ⟨post, by simpa using h⟩
      | cons b pre' =>
        rw [List.cons_append] at h
        injection h with h1 h2
        exact Or.inr ⟨pre', post, h2⟩

theorem leadsWith_append [DecidableEq α] (a b : List α) :
    leadsWith a (a ++ b) = true :=
  (leadsWith_iff a (a ++ b)).mpr ⟨b, rfl⟩

theorem encodeUtf8_cons (n : Nat) (t : List Nat) :
    encodeUtf8 (n :: t) = encodeScalar n ++ encodeUtf8 t := by
  simp [encodeUtf8]

theorem decodeLoop_one (lo hi acc b : Nat) (t : List Nat) (h : lo ≤ b ∧ b ≤ hi) :
    decodeLoop 1 lo hi acc (b :: t) =
      (decodeLoop 0 0 0 0 t).map fun s => (acc * 64 + (b - 0x80)) :: s := by
  have e : decodeLoop 1 lo hi acc (b :: t) =
      if lo ≤ b ∧ b ≤ hi then
        (decodeLoop 0 0 0 0 t).map fun s => (acc * 64 + (b - 0x80)) :: s
      else none := rfl
  rw [e, if_pos h]

theorem decodeLoop_run2 (lo hi acc b1 b2 : Nat) (t : List Nat)
    (h1 : lo ≤ b1 ∧ b1 ≤ hi) (h2 : 0x80 ≤ b2 ∧ b2 ≤ 0xBF) :
    decodeLoop 2 lo hi acc (b1 :: b2 :: t) =
      (decodeLoop 0 0 0 0 t).map fun s =>
        ((acc * 64 + (b1 - 0x80)) * 64 + (b2 - 0x80)) :: s := by
  have e : decodeLoop 2 lo hi acc (b1 :: b2 :: t) =
      if lo ≤ b1 ∧ b1 ≤ hi then
        decodeLoop 1 0x80 0xBF (acc * 64 + (b1 - 0x80)) (b2 :: t)
      else none := rfl
  rw [e, if_pos h1, decodeLoop_one _ _ _ _ _ h2]

theorem decodeLoop_run3 (lo hi acc b1 b2 b3 : Nat) (t : List Nat)
    (h1 : lo ≤ b1 ∧ b1 ≤ hi) (h2 : 0x80 ≤ b2 ∧ b2 ≤ 0xBF)
    (h3 : 0x80 ≤ b3 ∧ b3 ≤ 0xBF) :
    decodeLoop 3 lo hi acc (b1 :: b2 :: b3 :: t) =
      (decodeLoop 0 0 0 0 t).map fun s =>
        (((acc * 64 + (b1 - 0x80)) * 64 + (b2 - 0x80)) * 64 + (b3 - 0x80)) :: s := by
  have e : decodeLoop 3 lo hi acc (b1 :: b2 :: b3 :: t) =
      if lo ≤ b1 ∧ b1 ≤ hi then
        decodeLoop 2 0x80 0xBF (acc * 64 + (b1 - 0x80)) (b2 :: b3 :: t)
      else none := rfl
  rw [e, if_pos h1, decodeLoop_run2 _ _ _ _ _ _ h2 h3]

theorem decodeLoop_leading (b : Nat) (t : List Nat) :
    decodeLoop 0 0 0 0 (b :: t) =
      (if b < 0x80 then (decodeLoop 0 0 0 0 t).map fun s => b :: s
       else if 0xC2 ≤ b ∧ b ≤ 0xDF then decodeLoop 1 0x80 0xBF (b - 0xC0) t
       else if b = 0xE0 then decodeLoop 2 0xA0 0xBF (b - 0xE0) t
       else if 0xE1 ≤ b ∧ b ≤ 0xEC then decodeLoop 2 0x80 0xBF (b - 0xE0) t
       else if b = 0xED then decodeLoop 2 0x80 0x9F (b - 0xE0) t
       else if 0xEE ≤ b ∧ b ≤ 0xEF then decodeLoop 2 0x80 0xBF (b - 0xE0) t
       else if b = 0xF0 then decodeLoop 3 0x90 0xBF (b - 0xF0) t
       else if 0xF1 ≤ b ∧ b ≤ 0xF3 then decodeLoop 3 0x80 0xBF (b - 0xF0) t
       else if b = 0xF4 then decodeLoop 3 0x80 0x8F (b - 0xF0) t
       else none) := rfl

theorem decodeLoop_ascii (b : Nat) (t : List Nat) (h : b < 0x80) :
    decodeLoop 0 0 0 0 (b :: t) = (decodeLoop 0 0 0 0 t).map fun s => b :: s := by
  rw [decodeLoop_leading, if_pos h]

theorem decodeLoop_leadC2DF (b : Nat) (t : List Nat) (h1 : 0xC2 ≤ b) (h2 : b ≤ 0xDF) :
    decodeLoop 0 0 0 0 (b :: t) = decodeLoop 1 0x80 0xBF (b - 0xC0) t := by
  interval_cases b <;> rfl

theorem decodeLoop_leadE0 (t : List Nat) :
    decodeLoop 0 0 0 0 (0xE0 :: t) = decodeLoop 2 0xA0 0xBF 0 t := rfl

theorem decodeLoop_leadE1EC (b : Nat) (t : List Nat) (h1 : 0xE1 ≤ b) (h2 : b ≤ 0xEC) :
    decodeLoop 0 0 0 0 (b :: t) = decodeLoop 2 0x80 0xBF (b - 0xE0) t := by
  interval_cases b <;> rfl

theorem decodeLoop_leadED (t : List Nat) :
    decodeLoop 0 0 0 0 (0xED :: t) = decodeLoop 2 0x80 0x9F 13 t := rfl

theorem decodeLoop_leadEEEF (b : Nat) (t : List Nat) (h1 : 0xEE ≤ b) (h2 : b ≤ 0xEF) :
    decodeLoop 0 0 0 0 (b :: t) = decodeLoop 2 0x80 0xBF (b - 0xE0) t := by
  interval_cases b <;> rfl

theorem decodeLoop_leadF0 (t : List Nat) :
    decodeLoop 0 0 0 0 (0xF0 :: t) = decodeLoop 3 0x90 0xBF 0 t := rfl

theorem decodeLoop_leadF1F3 (b : Nat) (t : List Nat) (h1 : 0xF1 ≤ b) (h2 : b ≤ 0xF3) :
    decodeLoop 0 0 0 0 (b :: t) = decodeLoop 3 0x80 0xBF (b - 0xF0) t := by
  interval_cases b <;> rfl

theorem decodeLoop_leadF4 (t : List Nat) :
    decodeLoop 0 0 0 0 (0xF4 :: t) = decodeLoop 3 0x80 0x8F 4 t := rfl

/-- Decoding one encoded scalar value from the front of a byte stream. -/
theorem decodeUtf8_encodeScalar (n : Nat) (hv : ValidScalar n) (rest : List Nat) :
    decodeUtf8 (encodeScalar n ++ rest) = (decodeUtf8 rest).map fun s => n :: s := by
  have hv' : n < 0xD800 ∨ (0xDFFF < n ∧ n < 0x110000) := hv
  unfold decodeUtf8
  by_cases hA : n < 0x80
  · rw [encodeScalar, if_pos hA]
    simpa using decodeLoop_ascii n rest hA
  · by_cases hB : n < 0x800
    · rw [encodeScalar, if_neg hA, if_pos hB]
      simp only [List.cons_append, List.nil_append]
      rw [decodeLoop_leadC2DF (0xC0 + n / 64) ((0x80 + n % 64) :: rest) (by omega) (by omega),
        decodeLoop_one 0x80 0xBF (0xC0 + n / 64 - 0xC0) (0x80 + n % 64) rest ⟨by omega, by omega⟩,
        show (0xC0 + n / 64 - 0xC0) * 64 + (0x80 + n % 64 - 0x80) = n from by omega]
    · by_cases hC : n < 0x10000
      · rw [encodeScalar, if_neg hA, if_neg hB, if_pos hC]
        simp only [List.cons_append, List.nil_append]
        have harith : ((0xE0 + n / 4096 - 0xE0) * 64 + (0x80 + n / 64 % 64 - 0x80)) * 64 +
            (0x80 + n % 64 - 0x80) = n := by omega
        by_cases h1 : n < 0x1000
        · rw [show 0xE0 + n / 4096 = 0xE0 from by omega, decodeLoop_leadE0,
            decodeLoop_run2 0xA0 0xBF 0 (0x80 + n / 64 % 64) (0x80 + n % 64) rest
              ⟨by omega, by omega⟩ ⟨by omega, by omega⟩,
            show (0 * 64 + (0x80 + n / 64 % 64 - 0x80)) * 64 + (0x80 + n % 64 - 0x80) = n
              from by omega]
        · by_cases h2 : n < 0xD000
          · rw [decodeLoop_leadE1EC (0xE0 + n / 4096)
                ((0x80 + n / 64 % 64) :: (0x80 + n % 64) :: rest) (by omega) (by omega),
              decodeLoop_run2 0x80 0xBF (0xE0 + n / 4096 - 0xE0) (0x80 + n / 64 % 64)
                (0x80 + n % 64) rest ⟨by omega, by omega⟩ ⟨by omega, by omega⟩, harith]
          · by_cases h3 : n < 0xE000
            · have hs : n < 0xD800 := by omega
              rw [show 0xE0 + n / 4096 = 0xED from by omega, decodeLoop_leadED,
                decodeLoop_run2 0x80 0x9F 13 (0x80 + n / 64 % 64) (0x80 + n % 64) rest
                  ⟨by omega, by omega⟩ ⟨by omega, by omega⟩,
                show (13 * 64 + (0x80 + n / 64 % 64 - 0x80)) * 64 + (0x80 + n % 64 - 0x80) = n
                  from by omega]
            · rw [decodeLoop_leadEEEF (0xE0 + n / 4096)
                  ((0x80 + n / 64 % 64) :: (0x80 + n % 64) :: rest) (by omega) (by omega),
                decodeLoop_run2 0x80 0xBF (0xE0 + n / 4096 - 0xE0) (0x80 + n / 64 % 64)
                  (0x80 + n % 64) rest ⟨by omega, by omega⟩ ⟨by omega, by omega⟩, harith]
      · rw [encodeScalar, if_neg hA, if_neg hB, if_neg hC]
        simp only [List.cons_append, List.nil_append]
        have harith : (((0xF0 + n / 262144 - 0xF0) * 64 + (0x80 + n / 4096 % 64 - 0x80)) * 64 +
            (0x80 + n / 64 % 64 - 0x80)) * 64 + (0x80 + n % 64 - 0x80) = n := by omega
        by_cases h1 : n < 0x40000
        · rw [show 0xF0 + n / 262144 = 0xF0 from by omega, decodeLoop_leadF0,
            decodeLoop_run3 0x90 0xBF 0 (0x80 + n / 4096 % 64) (0x80 + n / 64 % 64)
              (0x80 + n % 64) rest ⟨by omega, by omega⟩ ⟨by omega, by omega⟩ ⟨by omega, by omega⟩,
            show ((0 * 64 + (0x80 + n / 4096 % 64 - 0x80)) * 64 +
                (0x80 + n / 64 % 64 - 0x80)) * 64 + (0x80 + n % 64 - 0x80) = n from by omega]
        · by_cases h2 : n < 0x100000
          · rw [decodeLoop_leadF1F3 (0xF0 + n / 262144)
                ((0x80 + n / 4096 % 64) :: (0x80 + n / 64 % 64) :: (0x80 + n % 64) :: rest)
                (by omega) (by omega),
              decodeLoop_run3 0x80 0xBF (0xF0 + n / 262144 - 0xF0) (0x80 + n / 4096 % 64)
                (0x80 + n / 64 % 64) (0x80 + n % 64) rest ⟨by omega, by omega⟩
                ⟨by omega, by omega⟩ ⟨by omega, by omega⟩, harith]
          · rw [show 0xF0 + n / 262144 = 0xF4 from by omega, decodeLoop_leadF4,
              decodeLoop_run3 0x80 0x8F 4 (0x80 + n / 4096 % 64) (0x80 + n / 64 % 64)
                (0x80 + n % 64) rest ⟨by omega, by omega⟩ ⟨by omega, by omega⟩
                ⟨by omega, by omega⟩,
              show ((4 * 64 + (0x80 + n / 4096 % 64 - 0x80)) * 64 +
                  (0x80 + n / 64 % 64 - 0x80)) * 64 + (0x80 + n % 64 - 0x80) = n from by omega]

/-- UTF-8 encoding followed by validation/decoding is the identity on
sequences of valid scalar values. -/
theorem decodeUtf8_encodeUtf8 (s : List Nat) (hv : ∀ n ∈ s, ValidScalar n) :
    decodeUtf8 (encodeUtf8 s) = some s := by
  induction s with
  | nil => rfl
  | cons n t ih =>
    rw [encodeUtf8_cons, decodeUtf8_encodeScalar n (hv n (by simp)) _,
      ih fun m hm => hv m (by simp [hm])]
    rfl

theorem is_match_iff (r : Regex) (s : List Nat) :
    is_match r s = true ↔
      ∃ pre mid post, s = pre ++ mid ++ post ∧ rmatch r mid = true := by
  unfold is_match
  simp only [List.any_eq_true]
  constructor
  · rintro ⟨t, ht, p, hp, hm⟩
    rcases (List.mem_tails _ _).mp ht with ⟨pre, rfl⟩
    rcases (List.mem_inits _ _).mp hp with ⟨post, rfl⟩
    exact ⟨pre, p, post, by simp, hm⟩
  · rintro ⟨pre, mid, post, hs, hm⟩
    refine ⟨mid ++ post, (List.mem_tails _ _).mpr ⟨pre, by simp [hs]⟩,
      mid, (List.mem_inits _ _).mpr ⟨post, rfl⟩, hm⟩

theorem resolveComps_clean :
    ∀ cs : List (List Nat), cleanComps cs = true →
      ∀ acc : List (List Nat),
        cs.foldl
          (fun acc c =>
            if c = [46, 46] then acc.dropLast
            else if c = [46] then acc
            else acc ++ [c]) acc = acc ++ cs := by
  intro cs
  induction cs with
  | nil => intro _ acc; simp
  | cons c cs ih =>
    intro h acc
    simp only [cleanComps, List.all_cons, Bool.and_eq_true, Bool.not_eq_true',
      decide_eq_false_iff_not] at h
    rw [List.foldl_cons, if_neg h.1.1, if_neg h.1.2, ih h.2 (acc ++ [c])]
    simp

/-! Claim theorems. -/

/-- C1: `empty_stderr` is claimed to return true iff the captured stderr
bytes have length 0, but the source inspects `self.stdout`: on a capture
with empty stdout and the nonempty stderr `[119]`, `empty_stderr` still
returns `true`, contradicting its own documentation ("Checks that the
stderr is empty"). -/
theorem c1_empty_stderr_inspects_stdout :
    empty_stderr ⟨[], [119], 0⟩ = true ∧ empty_stdout ⟨[], [119], 0⟩ = true := by
  decide

/-- C2 (counterexample): `is_bin` does not return `false` on an open error —
`File::open(..).expect(..)` panics (modelled as `none`) when the file cannot
be opened. -/
theorem c2_counterexample :
    is_bin ⟨true, [[116]]⟩ (fun _ => none) ⟨false, [[97]]⟩ = none := by
  decide

/-- C2 (amended): once the file can be opened, `is_bin` never fails — it
always returns a boolean — and a file shorter than 8 bytes (the case in
which `read_exact` fails) is classified non-matching rather than raising an
error.  An open failure, by contrast, panics. -/
theorem c2_is_bin_total_after_open (root : RPath) (fs : FS) (p : RPath)
    (bytes : List Nat) (hfs : fs (pathJoin root p) = some bytes) :
    (is_bin root fs p).isSome = true ∧
      (bytes.length < 8 → is_bin root fs p = some false) := by
  have hbin : is_bin root fs p =
      some (magic_match (if 8 ≤ bytes.length then bytes.take 8
        else List.replicate 8 0x01)) := by
    unfold is_bin
    rw [hfs]
  constructor
  · rw [hbin]; rfl
  · intro hlen
    rw [hbin, if_neg (by omega),
      show magic_match (List.replicate 8 0x01) = false by decide]

/-- C2 (witness): a concrete one-byte file is classified `false` without
failing. -/
theorem c2_witness :
    is_bin ⟨true, [[116]]⟩ (fun _ => some [0x4D]) ⟨false, [[97]]⟩ = some false :=
  (c2_is_bin_total_after_open ⟨true, [[116]]⟩ (fun _ => some [0x4D]) ⟨false, [[97]]⟩
    [0x4D] rfl).2 (by decide)

/-- C3 (counterexample): a two-byte file whose contents begin with
`4D 5A` is classified non-executable — the failed `read_exact` refills the
entire buffer with the sentinel `0x01`, discarding the read bytes, so the
claim "if its contents begin with bytes 4D 5A it is classified executable"
fails on files shorter than 8 bytes. -/
theorem c3_counterexample :
    is_bin ⟨true, [[116]]⟩ (fun _ => some [0x4D, 0x5A]) ⟨false, [[97]]⟩ = some false := by
  decide

/-- C3 (amended): for files of at least 8 bytes, a `4D 5A` prefix or a
`7F 45 4C 46` prefix is classified executable; every file of fewer than 8
bytes — in particular the zero-length file — is classified non-executable,
because the entire 8-byte buffer is refilled with the sentinel `0x01`
(which matches no table entry) rather than padded after the read bytes. -/
theorem c3_magic_classification (root : RPath) (fs : FS) (p : RPath)
    (bytes : List Nat) (hfs : fs (pathJoin root p) = some bytes) :
    (8 ≤ bytes.length → leadsWith [0x4D, 0x5A] bytes = true →
      is_bin root fs p = some true) ∧
    (8 ≤ bytes.length → leadsWith [0x7F, 0x45, 0x4C, 0x46] bytes = true →
      is_bin root fs p = some true) ∧
    (bytes.length < 8 → is_bin root fs p = some false) ∧
    (bytes = [] → is_bin root fs p = some false) := by
  have hbin : is_bin root fs p =
      some (magic_match (if 8 ≤ bytes.length then bytes.take 8
        else List.replicate 8 0x01)) := by
    unfold is_bin
    rw [hfs]
  have hshort : bytes.length < 8 → is_bin root fs p = some false := by
    intro hlen
    rw [hbin, if_neg (by omega),
      show magic_match (List.replicate 8 0x01) = false by decide]
  refine ⟨?_, ?_, hshort, ?_⟩
  · intro hlen hMZ
    rcases (leadsWith_iff _ _).mp hMZ with ⟨rest, rfl⟩
    rw [hbin, if_pos hlen]
    simp [magic_match, leadsWith]
  · intro hlen hELF
    rcases (leadsWith_iff _ _).mp hELF with ⟨rest, rfl⟩
    rw [hbin, if_pos hlen]
    simp [magic_match, leadsWith]
  · intro hnil
    exact hshort (by simp [hnil])

/-- C3 (witness): concrete 8-byte MZ and ELF files are classified
executable, and the empty file is classified non-executable. -/
theorem c3_witness :
    is_bin ⟨true, [[116]]⟩ (fun _ => some [0x4D, 0x5A, 0, 0, 0, 0, 0, 0])
        ⟨false, [[97]]⟩ = some true ∧
    is_bin ⟨true, [[116]]⟩ (fun _ => some [0x7F, 0x45, 0x4C, 0x46, 0, 0, 0, 0])
        ⟨false, [[97]]⟩ = some true ∧
    is_bin ⟨true, [[116]]⟩ (fun _ => some []) ⟨false, [[97]]⟩ = some false :=
  ⟨(c3_magic_classification ⟨true, [[116]]⟩ _ ⟨false, [[97]]⟩
      [0x4D, 0x5A, 0, 0, 0, 0, 0, 0] rfl).1 (by decide) (by decide),
   (c3_magic_classification ⟨true, [[116]]⟩ _ ⟨false, [[97]]⟩
      [0x7F, 0x45, 0x4C, 0x46, 0, 0, 0, 0] rfl).2.1 (by decide) (by decide),
   (c3_magic_classification ⟨true, [[116]]⟩ _ ⟨false, [[97]]⟩
      [] rfl).2.2.2 rfl⟩

/-- C4 (counterexample): neither the missing-file failure nor the
invalid-UTF-8 failure of `check_file` is an assertion failure carrying both
the actual and the expected text — the former is a propagated read error
and the latter a bare panic. -/
theorem c4_counterexample :
    isMismatchShown (check_file ⟨true, [[116]]⟩ (fun _ => none) ⟨false, [[97]]⟩ [97]) =
      false ∧
    isMismatchShown (check_file ⟨true, [[116]]⟩ (fun _ => some [0xFF]) ⟨false, [[97]]⟩ [97]) =
      false ∧
    check_file ⟨true, [[116]]⟩ (fun _ => none) ⟨false, [[97]]⟩ [97] = .ioError := by
  decide

/-- C4 (amended): `check_file` fails in each of the three cases, each
through a distinct channel: a missing file propagates the read error, a
file that is not valid UTF-8 panics (a failure distinct from a content
mismatch, carrying neither text), and a decoded content differing from the
expected text fails through the assertion that displays both actual and
expected. -/
theorem c4_check_file_failures (root : RPath) (fs : FS) (p : RPath)
    (bytes contents s : List Nat) :
    (fs (pathJoin root p) = none → check_file root fs p contents = .ioError) ∧
    (fs (pathJoin root p) = some bytes → decodeUtf8 bytes = none →
      check_file root fs p contents = .utf8Panic) ∧
    (fs (pathJoin root p) = some bytes → decodeUtf8 bytes = some s → s ≠ contents →
      check_file root fs p contents = .mismatchShown s contents) ∧
    (∀ a e, CheckResult.utf8Panic ≠ CheckResult.mismatchShown a e) := by
  refine ⟨?_, ?_, ?_, by intro a e h; cases h⟩
  · intro hfs
    unfold check_file
    rw [hfs]
  · intro hfs hdec
    unfold check_file
    rw [hfs]
    simp only []
    rw [hdec]
  · intro hfs hdec hne
    unfold check_file
    rw [hfs]
    simp only []
    rw [hdec]
    simp [hne]

/-- C4 (witness): the invalid-UTF-8 file and the mismatching file fail with
the respective distinct failures at concrete inputs. -/
theorem c4_witness :
    check_file ⟨true, [[116]]⟩ (fun _ => some [0xFF]) ⟨false, [[97]]⟩ [97] = .utf8Panic ∧
    check_file ⟨true, [[116]]⟩ (fun _ => some [98]) ⟨false, [[97]]⟩ [97] =
      .mismatchShown [98] [97] :=
  ⟨(c4_check_file_failures ⟨true, [[116]]⟩ (fun _ => some [0xFF]) ⟨false, [[97]]⟩
      [0xFF] [97] []).2.1 rfl (by decide),
   (c4_check_file_failures ⟨true, [[116]]⟩ (fun _ => some [98]) ⟨false, [[97]]⟩
      [98] [97] [98]).2.2.1 rfl (by decide) (by decide)⟩

/-- C5 (counterexample): `with_stdout_regex` does not succeed *only* when
the pattern matches a substring of the decoded stdout.  For the well-formed
pattern `(a|b)(c|d)` and a stdout equal to the pattern's own text, no
substring matches, yet the failure path `assert_eq!(buf, regex.as_ref())`
compares equal strings and the call returns successfully. -/
theorem c5_counterexample :
    with_stdout_regex (some patAltPair) (textOf patAltPair)
        ⟨textOf patAltPair, [], 0⟩ = .ok ∧
    is_match patAltPair (textOf patAltPair) = false ∧
    decodeUtf8 (textOf patAltPair) = some (textOf patAltPair) := by
  decide

/-- C5 (amended): for a captured stdout decoding to `s` and a well-formed
pattern, `with_stdout_regex` succeeds iff the pattern fully matches some
contiguous substring of `s` (full-string matching is not required) or —
through the equality assertion used to report a failed match — `s` is
textually equal to the pattern text. -/
theorem c5_with_stdout_regex_succeeds_iff (re : Regex) (patText : List Nat)
    (o : Output) (s : List Nat) (hdec : decodeUtf8 o.stdout = some s) :
    with_stdout_regex (some re) patText o = .ok ↔
      ((∃ pre mid post, s = pre ++ mid ++ post ∧ rmatch re mid = true) ∨ s = patText) := by
  unfold with_stdout_regex
  rw [hdec]
  simp only []
  by_cases hm : is_match re s = true
  · rw [if_pos hm]
    exact ⟨fun _ => Or.inl ((is_match_iff re s).mp hm), fun _ => rfl⟩
  · rw [if_neg hm]
    by_cases he : s = patText
    · rw [if_pos he]
      exact ⟨fun _ => Or.inr he, fun _ => rfl⟩
    · rw [if_neg he]
      constructor
      · intro h
        exact absurd h (by simp)
      · rintro (hex | he')
        · exact absurd ((is_match_iff re s).mpr hex) hm
        · exact absurd he' he

/-- C5 (witness): the pattern `a` succeeds on the stdout `xay` because it
matches the substring `a`. -/
theorem c5_witness :
    with_stdout_regex (some (.rchar 97)) [122] ⟨[120, 97, 121], [], 0⟩ = .ok :=
  (c5_with_stdout_regex_succeeds_iff (.rchar 97) [122] ⟨[120, 97, 121], [], 0⟩
      [120, 97, 121] (by decide)).mpr
    (Or.inl ⟨[120], [97], [121], by decide, by decide⟩)

/-- C6: with a malformed pattern (the external compiler returned an error),
both pattern assertions panic with `PatternError` reporting the pattern
text, for every capture — in particular before any UTF-8 decoding of or
comparison against the captured stream, which may even be invalid UTF-8. -/
theorem c6_pattern_error_first (patText : List Nat) (o : Output) :
    with_stdout_regex none patText o = .patternPanic patText ∧
      with_stderr_regex none patText o = .patternPanic patText :=
  ⟨rfl, rfl⟩

/-- C7: writing a file with `new_file` and checking it with `check_file`
on the same project with the same path and contents succeeds
(write/check round-trip). -/
theorem c7_roundtrip (root : RPath) (fs : FS) (p : RPath) (contents : List Nat)
    (hv : ∀ n ∈ contents, ValidScalar n) :
    check_file root (new_file root fs p contents) p contents = .ok := by
  unfold check_file new_file fsWrite
  rw [if_pos rfl]
  simp only []
  rw [decodeUtf8_encodeUtf8 contents hv]
  simp

/-- C7 (witness): the round-trip succeeds on the concrete contents
`hi` (scalars `[104, 105]`). -/
theorem c7_witness :
    check_file ⟨true, [[116]]⟩
        (new_file ⟨true, [[116]]⟩ (fun _ => none) ⟨false, [[97]]⟩ [104, 105])
        ⟨false, [[97]]⟩ [104, 105] = .ok :=
  c7_roundtrip ⟨true, [[116]]⟩ (fun _ => none) ⟨false, [[97]]⟩ [104, 105] (by decide)

/-- C8 (counterexample): the joined location can escape the sandbox
directory `/tmp/sb`: an absolute supplied path replaces the sandbox root
entirely (and `new_file` then writes at that outside location), and a
relative path with a `..` component resolves outside the sandbox — the code
neither rejects nor normalizes either. -/
theorem c8_counterexample :
    insideB ⟨true, [[116, 109, 112], [115, 98]]⟩
        (pathJoin ⟨true, [[116, 109, 112], [115, 98]]⟩ ⟨true, [[101]]⟩) = false ∧
    insideB ⟨true, [[116, 109, 112], [115, 98]]⟩
        (pathJoin ⟨true, [[116, 109, 112], [115, 98]]⟩ ⟨false, [[46, 46], [120]]⟩) = false ∧
    (new_file ⟨true, [[116, 109, 112], [115, 98]]⟩ (fun _ => none) ⟨true, [[101]]⟩ [97])
        ⟨true, [[101]]⟩ = some (encodeUtf8 [97]) := by
  decide

/-- C8 (amended): a supplied path that is relative and free of `.` and `..`
components is interpreted relative to the sandbox directory and the
operated-on location stays inside it; absolute supplied paths and `..`
traversal, however, escape, as `Path::join` performs no normalization. -/
theorem c8_relative_clean_paths_stay_inside (root p : RPath)
    (habs : p.absolute = false) (hr : cleanComps root.comps = true)
    (hp : cleanComps p.comps = true) :
    insideB root (pathJoin root p) = true := by
  have hclean : cleanComps (root.comps ++ p.comps) = true := by
    simp only [cleanComps, List.all_append, Bool.and_eq_true]
    exact ⟨hr, hp⟩
  unfold pathJoin
  rw [if_neg (by simp [habs])]
  unfold insideB resolveComps
  simp only []
  rw [resolveComps_clean (root.comps ++ p.comps) hclean []]
  simp [leadsWith_append]

/-- C8 (witness): a clean relative path stays inside a concrete sandbox
directory. -/
theorem c8_witness :
    insideB ⟨true, [[116]]⟩ (pathJoin ⟨true, [[116]]⟩ ⟨false, [[120]]⟩) = true :=
  c8_relative_clean_paths_stay_inside ⟨true, [[116]]⟩ ⟨false, [[120]]⟩
    rfl (by decide) (by decide)

/-- C9 (counterexample): the warning-marker queries are not total — on a
stream that is not valid UTF-8 both `stderr_warns` and `stdout_warns` panic
(modelled as `none`) instead of returning a boolean. -/
theorem c9_counterexample :
    stderr_warns ⟨[], [0xFF], 0⟩ = none ∧ stdout_warns ⟨[0xFF], [], 0⟩ = none := by
  decide

/-- C9 (amended): on streams that decode as UTF-8, `stderr_warns` and
`stdout_warns` return the boolean substring-containment of the marker
`warnings:` in their respective streams, independent of the
equality/pattern machinery; `stderr_warns` answers true exactly when the
marker occurs contiguously in the decoded stderr. -/
theorem c9_warns_containment (o : Output) (s t : List Nat)
    (hs : decodeUtf8 o.stderr = some s) (ht : decodeUtf8 o.stdout = some t) :
    stderr_warns o = some (containsSub warnMarker s) ∧
    stdout_warns o = some (containsSub warnMarker t) ∧
    (stderr_warns o = some true ↔ ∃ pre post, s = pre ++ warnMarker ++ post) := by
  have h1 : stderr_warns o = some (containsSub warnMarker s) := by
    unfold stderr_warns
    rw [hs]
  have h2 : stdout_warns o = some (containsSub warnMarker t) := by
    unfold stdout_warns
    rw [ht]
  refine ⟨h1, h2, ?_⟩
  rw [h1]
  simp only [Option.some.injEq]
  exact containsSub_iff warnMarker s

/-- C9 (witness): a concrete stderr containing `warnings:` answers
`some true`. -/
theorem c9_witness :
    stderr_warns ⟨[104], [119, 97, 114, 110, 105, 110, 103, 115, 58], 0⟩ = some true :=
  (c9_warns_containment ⟨[104], [119, 97, 114, 110, 105, 110, 103, 115, 58], 0⟩
      [119, 97, 114, 110, 105, 110, 103, 115, 58] [104] (by decide) (by decide)).2.2.mpr
    ⟨[], [], by decide⟩

/-- C10: `empty_stderr` returns exactly the value of `empty_stdout` on the
same stdout — both inspect the captured stdout buffer — so its result is a
function of stdout alone, unaffected by stderr (and by the exit status). -/
theorem c10_empty_stderr_is_function_of_stdout
    (out err err' : List Nat) (st st' : Int) :
    empty_stderr ⟨out, err, st⟩ = empty_stdout ⟨out, err', st'⟩ := rfl

end CliSandbox
